import Mathlib

/-!
# RestfulGolang: the album CRUD handlers of `main.go`

A shallow embedding of the seven HTTP handlers of `src/main.go` and of the
parts of their environment they depend on:

* `Atoi` embeds `strconv.Atoi` for a 64-bit `int`;
* `JSON`, `marshalAlbum`, `marshalAlbums`, `marshalMessage` embed what
  `json.NewEncoder(w).Encode` writes, as a JSON value (the bytes of the body
  are the rendering of that value followed by a newline);
* `DB` embeds the `album` table behind the shared handle `db`, together with
  the list of statements issued on the handle;
* `Outcome` embeds the two ways a handler ends: it returns after writing a
  response, or `log.Fatal` ends the process before anything is written.

The driver and the connection are taken to work: a statement never fails for
a reason other than `sql.ErrNoRows`, so the `log.Fatal(err)` branches that
guard store errors are not reachable in the embedding. The store keeps the
values it is handed as they are (no truncation, no range or character-set
conversion) and returns rows in the order it holds them. `int` is 64 bits
wide, so `int(id)` on the `int64` of `LastInsertId` is the identity.
-/

namespace RestfulGolang

/-! ## Data model -/

/-- Album struct of `main.go` (lines 16-21). -/
structure Album where
  ID : Int
  Title : String
  Artist : String
  Year : Int
deriving DecidableEq, Repr

/-- JSON values, as written by `encoding/json`. -/
inductive JSON where
  | null
  | num (n : Int)
  | str (s : String)
  | arr (xs : List JSON)
  | obj (kvs : List (String × JSON))

/-- A Go slice `[]Album`: `none` is the `nil` slice, `some xs` a non-nil slice
with elements `xs`. -/
abbrev AlbumSlice := Option (List Album)

/-- Go `append(albums, album)`: appending to the nil slice allocates. -/
def AlbumSlice.append (s : AlbumSlice) (a : Album) : AlbumSlice :=
  match s with
  | none => some [a]
  | some xs => some (xs ++ [a])

/-- Encoding of an `Album` value: a JSON object with the four tagged fields in
declaration order. -/
def marshalAlbum (a : Album) : JSON :=
  .obj [("id", .num a.ID), ("title", .str a.Title), ("artist", .str a.Artist),
        ("year", .num a.Year)]

/-- Encoding of a `[]Album`: `encoding/json` writes the nil slice as `null`
and a non-nil slice as an array. -/
def marshalAlbums (s : AlbumSlice) : JSON :=
  match s with
  | none => .null
  | some xs => .arr (xs.map marshalAlbum)

/-- Encoding of the literal `map[string]string` with the single key
`message`. -/
def marshalMessage (msg : String) : JSON :=
  .obj [("message", .str msg)]

/-! ## HTTP -/

/-- Body of a response: the message line written by `http.Error`, or the JSON
value written by `json.NewEncoder(w).Encode`. -/
inductive Body where
  | text (msg : String)
  | json (v : JSON)

/-- What the handler wrote to the `http.ResponseWriter`. -/
structure Response where
  status : Nat
  body : Body

def StatusOK : Nat := 200
def StatusBadRequest : Nat := 400
def StatusNotFound : Nat := 404

/-- Go `http.Error(w, msg, code)`: status `code`, plain-text body `msg`. -/
def httpError (msg : String) (code : Nat) : Response :=
  ⟨code, .text msg⟩

/-- Go `json.NewEncoder(w).Encode(v)` on a fresh writer: the first write sends
the implicit status 200. -/
def jsonEncode (v : JSON) : Response :=
  ⟨StatusOK, .json v⟩

/-- The parts of `*http.Request` the handlers read. `vars` is `mux.Vars(r)`,
`query` is `r.URL.Query()` as key/value pairs in order of appearance, and
`body` is the result of `json.NewDecoder(r.Body).Decode(&album)` on a zero
`Album`: `none` when `Decode` returns an error, otherwise the decoded struct
(a field absent from the body keeps its zero value). -/
structure Request where
  vars : List (String × String)
  query : List (String × String)
  body : Option Album

/-- Go map index `params[key]`: the zero value `""` when the key is absent. -/
def lookupVar (vars : List (String × String)) (key : String) : String :=
  match vars.find? (fun kv => kv.1 == key) with
  | some kv => kv.2
  | none => ""

/-- Go `url.Values.Get(key)`: the first value of the key, `""` when absent. -/
def queryGet (query : List (String × String)) (key : String) : String :=
  match query.find? (fun kv => kv.1 == key) with
  | some kv => kv.2
  | none => ""

/-! ## strconv.Atoi -/

def maxInt64 : Int := 9223372036854775807

/-- Value of a string of decimal digits, `none` when a character is not one of
`0`..`9`. -/
def parseDigits (cs : List Char) : Option Nat :=
  cs.foldl (fun acc c =>
    match acc with
    | none => none
    | some n => if c.isDigit then some (n * 10 + (c.toNat - 48)) else none) (some 0)

/-- Go `strconv.Atoi` for a 64-bit `int`: an optional sign, then at least one
decimal digit and nothing else, and a value that fits `int`; `none` stands
for a non-nil error. -/
def Atoi (s : String) : Option Int :=
  let cs := s.toList
  match cs with
  | [] => none
  | c :: rest =>
    let neg := c == '-'
    let ds := if c == '-' || c == '+' then rest else cs
    if ds.isEmpty then none
    else
      match parseDigits ds with
      | none => none
      | some n =>
        if neg then
          if (n : Int) ≤ maxInt64 + 1 then some (-(n : Int)) else none
        else
          if (n : Int) ≤ maxInt64 then some (n : Int) else none

/-! ## The store -/

/-- The five statements the handlers issue on the handle. -/
inductive Stmt where
  /-- `SELECT id, title, artist, year FROM album` -/
  | selectAll
  /-- `SELECT id, title, artist, year FROM album WHERE id = ?` -/
  | selectById (id : Int)
  /-- `INSERT INTO album (title, artist, year) VALUES (?, ?, ?)` -/
  | insertAlbum (title artist : String) (year : Int)
  /-- `UPDATE album SET title = ?, artist = ?, year = ? WHERE id = ?` -/
  | updateAlbum (title artist : String) (year : Int) (id : Int)
  /-- `DELETE FROM album WHERE id = ?` -/
  | deleteAlbum (id : Int)
deriving DecidableEq, Repr

/-- Modelled from the spec: the `album` table and its schema live in the
external database, not in `main.go`. The spec gives one table with columns
id (integer, primary, auto-assigned), title (text), artist (text) and year
(integer). `rows` are the rows in the order the store returns them, `nextId`
is the identifier the store assigns to the next inserted row, and `log` is
the list of statements issued on the handle so far, oldest first. -/
structure DB where
  rows : List Album
  nextId : Int
  log : List Stmt
deriving DecidableEq, Repr

/-- Invariants the store maintains for a primary, auto-assigned id: no two
rows share an id, and every stored id is below the next one to be assigned. -/
def DB.WF (db : DB) : Prop :=
  (db.rows.map Album.ID).Nodup ∧ ∀ r ∈ db.rows, r.ID < db.nextId

/-- Record that a statement was issued. -/
def DB.issue (db : DB) (st : Stmt) : DB :=
  { db with log := db.log ++ [st] }

/-- Go `db.Query("SELECT id, title, artist, year FROM album")`: all rows. -/
def DB.Query (db : DB) : List Album × DB :=
  (db.rows, db.issue .selectAll)

/-- Go `db.QueryRow("SELECT ... WHERE id = ?", id)` followed by `row.Scan`:
the first matching row, `none` for `sql.ErrNoRows`. -/
def DB.QueryRow (db : DB) (id : Int) : Option Album × DB :=
  (db.rows.find? (fun r => r.ID == id), db.issue (.selectById id))

/-- Go `db.Exec("INSERT INTO album (title, artist, year) VALUES (?, ?, ?)", ...)`
followed by `result.LastInsertId()`: the store assigns the id. -/
def DB.ExecInsert (db : DB) (title artist : String) (year : Int) : Int × DB :=
  (db.nextId,
   { rows := db.rows ++ [⟨db.nextId, title, artist, year⟩],
     nextId := db.nextId + 1,
     log := db.log ++ [.insertAlbum title artist year] })

/-- Go `db.Exec("UPDATE album SET title = ?, artist = ?, year = ? WHERE id = ?", ...)`:
the three fields of every row with that id are overwritten. -/
def DB.ExecUpdate (db : DB) (title artist : String) (year : Int) (id : Int) : DB :=
  { rows := db.rows.map (fun r => if r.ID = id then { r with Title := title, Artist := artist, Year := year } else r),
    nextId := db.nextId,
    log := db.log ++ [.updateAlbum title artist year id] }

/-- Go `db.Exec("DELETE FROM album WHERE id = ?", id)`. -/
def DB.ExecDelete (db : DB) (id : Int) : DB :=
  { rows := db.rows.filter (fun r => r.ID != id),
    nextId := db.nextId,
    log := db.log ++ [.deleteAlbum id] }

/-! ## Handlers -/

/-- How a handler ends: it returns after writing `resp`, or `log.Fatal` ends
the process (exit status 1) with nothing written to the client. In both cases
`db` is the store as the handler left it. -/
inductive Outcome where
  | respond (resp : Response) (db : DB)
  | fatal (db : DB)

/-- Store after the handler. -/
def Outcome.db : Outcome → DB
  | .respond _ d => d
  | .fatal d => d

/-- Response written by the handler, if any. -/
def Outcome.resp : Outcome → Option Response
  | .respond r _ => some r
  | .fatal _ => none

/-- `getAlbums` (lines 59-82). -/
def getAlbums (db : DB) (_r : Request) : Outcome :=
  let (rows, db1) := db.Query
  let albums : AlbumSlice := rows.foldl (fun albums album => albums.append album) none
  .respond (jsonEncode (marshalAlbums albums)) db1

/-- `getAlbum` (lines 93-120). -/
def getAlbum (db : DB) (r : Request) : Outcome :=
  let params := r.vars
  match Atoi (lookupVar params "id") with
  | none => .respond (httpError "Invalid album ID" StatusBadRequest) db
  | some albumID =>
    match db.QueryRow albumID with
    | (none, db1) => .respond (httpError "Album not found" StatusNotFound) db1
    | (some album, db1) => .respond (jsonEncode (marshalAlbum album)) db1

/-- `createAlbum` (lines 129-154). -/
def createAlbum (db : DB) (r : Request) : Outcome :=
  match r.body with
  | none => .fatal db
  | some album =>
    let (id, db1) := db.ExecInsert album.Title album.Artist album.Year
    let album := { album with ID := id }
    .respond (jsonEncode (marshalAlbum album)) db1

/-- `updateAlbum` (lines 163-186). -/
def updateAlbum (db : DB) (r : Request) : Outcome :=
  let params := r.vars
  match Atoi (lookupVar params "id") with
  | none => .fatal db
  | some albumID =>
    match r.body with
    | none => .fatal db
    | some album =>
      let db1 := db.ExecUpdate album.Title album.Artist album.Year albumID
      .respond (jsonEncode (marshalAlbum album)) db1

/-- `deleteAlbum` (lines 195-211). -/
def deleteAlbum (db : DB) (r : Request) : Outcome :=
  let params := r.vars
  match Atoi (lookupVar params "id") with
  | none => .fatal db
  | some albumID =>
    let db1 := db.ExecDelete albumID
    .respond (jsonEncode (marshalMessage "Album deleted successfully")) db1

/-- `createAlbumViaURL` (lines 220-255). -/
def createAlbumViaURL (db : DB) (r : Request) : Outcome :=
  let title := queryGet r.query "title"
  let artist := queryGet r.query "artist"
  let yearStr := queryGet r.query "year"
  match Atoi yearStr with
  | none => .respond (httpError "Invalid year" StatusBadRequest) db
  | some year =>
    let (id, db1) := db.ExecInsert title artist year
    let album : Album := ⟨id, title, artist, year⟩
    .respond (jsonEncode (marshalAlbum album)) db1

/-- `updateAlbumViaURL` (lines 264-300). -/
def updateAlbumViaURL (db : DB) (r : Request) : Outcome :=
  let title := queryGet r.query "title"
  let artist := queryGet r.query "artist"
  let yearStr := queryGet r.query "year"
  match Atoi yearStr with
  | none => .respond (httpError "Invalid year" StatusBadRequest) db
  | some year =>
    let params := r.vars
    match Atoi (lookupVar params "id") with
    | none => .fatal db
    | some albumID =>
      let db1 := db.ExecUpdate title artist year albumID
      let album : Album := ⟨albumID, title, artist, year⟩
      .respond (jsonEncode (marshalAlbum album)) db1

/-- Elements of a Go slice; the nil slice has none. -/
def AlbumSlice.elems : AlbumSlice → List Album
  | none => []
  | some xs => xs

/-- Decimal digits of a natural number, most significant first. -/
def decimalDigits (n : Nat) : List Char :=
  if n < 10 then [Char.ofNat (48 + n)]
  else decimalDigits (n / 10) ++ [Char.ofNat (48 + n % 10)]
termination_by n
decreasing_by omega

/-- Decimal rendering of an integer, the text `strconv.Itoa` produces and a
client puts in the path to address an album by id. -/
def Itoa (n : Int) : String :=
  if n < 0 then String.mk ('-' :: decimalDigits n.natAbs)
  else String.mk (decimalDigits n.toNat)

/-! ## Sample inputs -/

/-- A store with two albums; the next id to be assigned is 3. -/
def sampleDB : DB :=
  ⟨[⟨1, "Blue", "Joni Mitchell", 1971⟩, ⟨2, "Kind of Blue", "Miles Davis", 1959⟩], 3, []⟩

/-- A store whose table holds a single album, with id 1. -/
def singleDB : DB := ⟨[⟨1, "Blue", "Joni Mitchell", 1971⟩], 2, []⟩

/-- A request that carries only the path variable `id`. -/
def pathRequest (id : String) : Request := ⟨[("id", id)], [], none⟩

/-! ## Auxiliary facts -/

theorem foldl_append_some (rows xs : List Album) :
    rows.foldl (fun (albums : AlbumSlice) album => albums.append album) (some xs)
      = some (xs ++ rows) := by
  induction rows generalizing xs with
  | nil => simp
  | cons a t ih =>
    have h := ih (xs ++ [a])
    simpa [AlbumSlice.append] using h

theorem foldl_append_none (rows : List Album) :
    rows.foldl (fun (albums : AlbumSlice) album => albums.append album) none
      = if rows = [] then none else some rows := by
  cases rows with
  | nil => simp
  | cons a t =>
    have h := foldl_append_some t [a]
    simpa [AlbumSlice.append] using h

theorem getAlbums_eq (db : DB) (r : Request) :
    getAlbums db r
      = .respond ⟨200, .json (marshalAlbums (if db.rows = [] then none else some db.rows))⟩
          (db.issue .selectAll) := by
  simp [getAlbums, DB.Query, foldl_append_none, jsonEncode, StatusOK]

theorem getAlbum_eq (db : DB) (r : Request) (id : Int)
    (h : Atoi (lookupVar r.vars "id") = some id) :
    getAlbum db r =
      match db.rows.find? (fun row => row.ID == id) with
      | none => .respond ⟨404, .text "Album not found"⟩ (db.issue (.selectById id))
      | some album => .respond ⟨200, .json (marshalAlbum album)⟩ (db.issue (.selectById id)) := by
  simp only [getAlbum, h, DB.QueryRow, httpError, jsonEncode, StatusOK, StatusNotFound]
  cases db.rows.find? (fun row => row.ID == id) <;> rfl

theorem createAlbum_eq (db : DB) (r : Request) (album : Album) (hb : r.body = some album) :
    createAlbum db r =
      .respond ⟨200, .json (marshalAlbum ⟨db.nextId, album.Title, album.Artist, album.Year⟩)⟩
        (db.ExecInsert album.Title album.Artist album.Year).2 := by
  simp [createAlbum, hb, DB.ExecInsert, jsonEncode, StatusOK]

theorem createAlbumViaURL_eq (db : DB) (r : Request) (year : Int)
    (hy : Atoi (queryGet r.query "year") = some year) :
    createAlbumViaURL db r =
      .respond ⟨200, .json (marshalAlbum
          ⟨db.nextId, queryGet r.query "title", queryGet r.query "artist", year⟩)⟩
        (db.ExecInsert (queryGet r.query "title") (queryGet r.query "artist") year).2 := by
  simp [createAlbumViaURL, hy, DB.ExecInsert, jsonEncode, StatusOK]

theorem updateAlbum_eq (db : DB) (r : Request) (id : Int) (album : Album)
    (hid : Atoi (lookupVar r.vars "id") = some id) (hb : r.body = some album) :
    updateAlbum db r =
      .respond ⟨200, .json (marshalAlbum album)⟩
        (db.ExecUpdate album.Title album.Artist album.Year id) := by
  simp [updateAlbum, hid, hb, jsonEncode, StatusOK]

theorem updateAlbumViaURL_eq (db : DB) (r : Request) (id year : Int)
    (hy : Atoi (queryGet r.query "year") = some year)
    (hid : Atoi (lookupVar r.vars "id") = some id) :
    updateAlbumViaURL db r =
      .respond ⟨200, .json (marshalAlbum
          ⟨id, queryGet r.query "title", queryGet r.query "artist", year⟩)⟩
        (db.ExecUpdate (queryGet r.query "title") (queryGet r.query "artist") year id) := by
  simp [updateAlbumViaURL, hid, hy, jsonEncode, StatusOK]

theorem deleteAlbum_eq (db : DB) (r : Request) (id : Int)
    (hid : Atoi (lookupVar r.vars "id") = some id) :
    deleteAlbum db r =
      .respond ⟨200, .json (marshalMessage "Album deleted successfully")⟩ (db.ExecDelete id) := by
  simp [deleteAlbum, hid, jsonEncode, StatusOK]

theorem find?_id_none {rows : List Album} {id : Int} :
    rows.find? (fun row => row.ID == id) = none ↔ ∀ row ∈ rows, row.ID ≠ id := by
  simp [List.find?_eq_none]

theorem find?_id_of_nodup {rows : List Album} {id : Int} {row : Album}
    (hnd : (rows.map Album.ID).Nodup) (hmem : row ∈ rows) (hid : row.ID = id) :
    rows.find? (fun row => row.ID == id) = some row := by
  induction rows with
  | nil => simp at hmem
  | cons a t ih =>
    rw [List.map_cons, List.nodup_cons] at hnd
    rw [List.mem_cons] at hmem
    by_cases ha : a.ID = id
    · rcases hmem with rfl | hmem
      · simp [List.find?_cons, ha]
      · exfalso
        apply hnd.1
        rw [ha, ← hid]
        exact List.mem_map_of_mem _ hmem
    · rcases hmem with rfl | hmem
      · exact absurd hid ha
      · simp [List.find?_cons, ha, ih hnd.2 hmem]

theorem marshalAlbum_injective {a b : Album} (h : marshalAlbum a = marshalAlbum b) : a = b := by
  cases a
  cases b
  simpa [marshalAlbum] using h

theorem ExecUpdate_ids (db : DB) (title artist : String) (year id : Int) :
    (db.ExecUpdate title artist year id).rows.map Album.ID = db.rows.map Album.ID := by
  simp only [DB.ExecUpdate, List.map_map]
  apply List.map_congr_left
  intro row _
  by_cases h : row.ID = id <;> simp [h]

theorem ExecUpdate_rows_of_absent (db : DB) (title artist : String) (year id : Int)
    (hno : ∀ row ∈ db.rows, row.ID ≠ id) :
    (db.ExecUpdate title artist year id).rows = db.rows := by
  simp only [DB.ExecUpdate]
  conv_rhs => rw [← List.map_id db.rows]
  apply List.map_congr_left
  intro row hrow
  simp [hno row hrow]

theorem mem_ExecUpdate_rows (db : DB) (title artist : String) (year id : Int) (row : Album) :
    row ∈ (db.ExecUpdate title artist year id).rows ↔
      (row ∈ db.rows ∧ row.ID ≠ id) ∨
      (row = ⟨id, title, artist, year⟩ ∧ ∃ old ∈ db.rows, old.ID = id) := by
  simp only [DB.ExecUpdate, List.mem_map]
  constructor
  · rintro ⟨old, hold, rfl⟩
    by_cases h : old.ID = id
    · right
      refine ⟨?_, old, hold, h⟩
      simp [h]
    · left
      simp only [h, if_false]
      exact ⟨hold, h⟩
  · rintro (⟨hrow, hne⟩ | ⟨rfl, old, hold, hid⟩)
    · exact ⟨row, hrow, by simp [hne]⟩
    · exact ⟨old, hold, by simp [hid]⟩

theorem WF_ExecInsert (db : DB) (title artist : String) (year : Int) (hwf : db.WF) :
    (db.ExecInsert title artist year).2.WF := by
  obtain ⟨hnd, hlt⟩ := hwf
  constructor
  · simp only [DB.ExecInsert, List.map_append, List.map_cons, List.map_nil]
    rw [List.nodup_append]
    refine ⟨hnd, List.nodup_singleton _, ?_⟩
    intro x hx hx2
    rw [List.mem_singleton] at hx2
    subst hx2
    obtain ⟨row, hrow, hid⟩ := List.mem_map.mp hx
    have := hlt row hrow
    omega
  · intro row hrow
    simp only [DB.ExecInsert, List.mem_append, List.mem_singleton] at hrow ⊢
    rcases hrow with hrow | rfl
    · have := hlt row hrow
      omega
    · simp

theorem WF_ExecUpdate (db : DB) (title artist : String) (year id : Int) (hwf : db.WF) :
    (db.ExecUpdate title artist year id).WF := by
  obtain ⟨hnd, hlt⟩ := hwf
  constructor
  · rw [ExecUpdate_ids]
    exact hnd
  · intro row hrow
    rcases (mem_ExecUpdate_rows db title artist year id row).mp hrow with
      ⟨hrow, _⟩ | ⟨rfl, old, hold, hid⟩
    · exact hlt row hrow
    · have := hlt old hold
      simpa [DB.ExecUpdate, hid] using this

theorem WF_ExecDelete (db : DB) (id : Int) (hwf : db.WF) : (db.ExecDelete id).WF := by
  obtain ⟨hnd, hlt⟩ := hwf
  constructor
  · exact (List.filter_sublist db.rows).map Album.ID |>.nodup hnd
  · intro row hrow
    exact hlt row (List.mem_of_mem_filter hrow)

theorem digit_char_facts (d : Nat) (hd : d < 10) :
    (Char.ofNat (48 + d)).isDigit = true ∧ (Char.ofNat (48 + d)).toNat - 48 = d ∧
    ((Char.ofNat (48 + d)) == '-') = false ∧ ((Char.ofNat (48 + d)) == '+') = false := by
  interval_cases d <;> decide

theorem parseDigits_snoc (cs : List Char) (c : Char) :
    parseDigits (cs ++ [c]) =
      match parseDigits cs with
      | none => none
      | some n => if c.isDigit then some (n * 10 + (c.toNat - 48)) else none := by
  simp [parseDigits, List.foldl_append]

theorem parseDigits_decimalDigits (n : Nat) : parseDigits (decimalDigits n) = some n := by
  induction n using Nat.strong_induction_on with
  | _ n ih =>
    rw [decimalDigits]
    split
    · rename_i h
      obtain ⟨h1, h2, _, _⟩ := digit_char_facts n h
      simp [parseDigits, h1, h2]
    · rename_i h
      obtain ⟨h1, h2, _, _⟩ := digit_char_facts (n % 10) (Nat.mod_lt _ (by decide))
      rw [parseDigits_snoc, ih (n / 10) (by omega)]
      simp only [h1, h2, if_true]
      congr 1
      omega

theorem decimalDigits_head (n : Nat) :
    ∃ c rest, decimalDigits n = c :: rest ∧ (c == '-') = false ∧ (c == '+') = false := by
  induction n using Nat.strong_induction_on with
  | _ n ih =>
    rw [decimalDigits]
    split
    · rename_i h
      obtain ⟨_, _, h3, h4⟩ := digit_char_facts n h
      exact ⟨_, [], rfl, h3, h4⟩
    · rename_i h
      obtain ⟨c, rest, hc, h3, h4⟩ := ih (n / 10) (by omega)
      exact ⟨c, rest ++ [Char.ofNat (48 + n % 10)], by rw [hc]; rfl, h3, h4⟩

theorem Atoi_minus_digits (ds : List Char) (m : Nat) (hds : ds.isEmpty = false)
    (hp : parseDigits ds = some m) (hb : (m : Int) ≤ maxInt64 + 1) :
    Atoi (String.mk ('-' :: ds)) = some (-(m : Int)) := by
  simp [Atoi, hds, hp, hb]

theorem Atoi_digits (c : Char) (rest : List Char) (m : Nat)
    (h1 : (c == '-') = false) (h2 : (c == '+') = false)
    (hp : parseDigits (c :: rest) = some m) (hb : (m : Int) ≤ maxInt64) :
    Atoi (String.mk (c :: rest)) = some (m : Int) := by
  simp [Atoi, h1, h2, hp, hb]

/-- Every value of a 64-bit `int` has a path text that `Atoi` parses back to
it. -/
theorem Atoi_Itoa (n : Int) (hlo : -(maxInt64 + 1) ≤ n) (hhi : n ≤ maxInt64) :
    Atoi (Itoa n) = some n := by
  by_cases hn : n < 0
  · obtain ⟨c, rest, hc, _, _⟩ := decimalDigits_head n.natAbs
    have hne : (decimalDigits n.natAbs).isEmpty = false := by rw [hc]; rfl
    have h := Atoi_minus_digits _ _ hne (parseDigits_decimalDigits n.natAbs) (by omega)
    have hval : -((n.natAbs : Nat) : Int) = n := by omega
    rw [hval] at h
    simpa only [Itoa, hn, if_true] using h
  · obtain ⟨c, rest, hc, h3, h4⟩ := decimalDigits_head n.toNat
    have hp := parseDigits_decimalDigits n.toNat
    rw [hc] at hp
    have h := Atoi_digits c rest _ h3 h4 hp (by omega)
    have hval : ((n.toNat : Nat) : Int) = n := by omega
    rw [hval] at h
    simpa only [Itoa, hn, if_false, hc] using h

/-- Sample evaluations of `Atoi`: signs, the empty string, letters and the
bounds of a 64-bit `int`. -/
theorem Atoi_samples :
    Atoi "12" = some 12 ∧ Atoi "-12" = some (-12) ∧ Atoi "+7" = some 7 ∧
    Atoi "007" = some 7 ∧ Atoi "" = none ∧ Atoi "+" = none ∧ Atoi "-" = none ∧
    Atoi "abc" = none ∧ Atoi "1a" = none ∧ Atoi " 1" = none ∧ Atoi "1.5" = none ∧
    Atoi "9223372036854775807" = some 9223372036854775807 ∧
    Atoi "9223372036854775808" = none ∧
    Atoi "-9223372036854775808" = some (-9223372036854775808) ∧
    Atoi "-9223372036854775809" = none := by
  decide

/-! ## Properties of the handlers -/

/-- C2: when the path id of a `getAlbum` request does not parse as an integer,
the response is 400 with the plain-text message "Invalid album ID", and the
handler returns with the store exactly as it was: same rows, same next id and
no statement added to the log of the handle. -/
theorem getAlbum_invalid_id (db : DB) (r : Request)
    (h : Atoi (lookupVar r.vars "id") = none) :
    (getAlbum db r).resp = some ⟨400, .text "Invalid album ID"⟩ ∧
    (getAlbum db r).db = db ∧ (getAlbum db r).db.log = db.log := by
  simp [getAlbum, h, httpError, StatusBadRequest, Outcome.resp, Outcome.db]

theorem getAlbum_invalid_id_witness :
    Atoi (lookupVar (pathRequest "abc").vars "id") = none ∧
    ((getAlbum sampleDB (pathRequest "abc")).resp = some ⟨400, .text "Invalid album ID"⟩ ∧
     (getAlbum sampleDB (pathRequest "abc")).db = sampleDB ∧
     (getAlbum sampleDB (pathRequest "abc")).db.log = sampleDB.log) :=
  ⟨by decide, getAlbum_invalid_id sampleDB (pathRequest "abc") (by decide)⟩

/-- C4: on a table with zero rows `getAlbums` responds 200, but the body is the
JSON value `null` (the encoding of the nil slice), which is not the empty
array. -/
theorem getAlbums_empty_table_null (nextId : Int) (log : List Stmt) (r : Request) :
    (getAlbums ⟨[], nextId, log⟩ r).resp = some ⟨200, .json .null⟩ ∧
    (getAlbums ⟨[], nextId, log⟩ r).resp ≠ some ⟨200, .json (.arr [])⟩ := by
  simp [getAlbums_eq, marshalAlbums, Outcome.resp]

/-- C5: `updateAlbum` on path id 2 with a body that carries title, artist and
year (and no id) responds 200 with an album whose id is 0, the id of the
decoded body, not the path id 2; `updateAlbumViaURL` for the same id and
fields responds with id 2. -/
theorem updateAlbum_response_id_from_body :
    (updateAlbum sampleDB ⟨[("id", "2")], [], some ⟨0, "Blue", "Joni Mitchell", 1971⟩⟩).resp
      = some ⟨200, .json (marshalAlbum ⟨0, "Blue", "Joni Mitchell", 1971⟩)⟩ ∧
    (updateAlbumViaURL sampleDB
        ⟨[("id", "2")], [("title", "Blue"), ("artist", "Joni Mitchell"), ("year", "1971")],
          none⟩).resp
      = some ⟨200, .json (marshalAlbum ⟨2, "Blue", "Joni Mitchell", 1971⟩)⟩ ∧
    marshalAlbum ⟨0, "Blue", "Joni Mitchell", 1971⟩
      ≠ marshalAlbum ⟨2, "Blue", "Joni Mitchell", 1971⟩ := by
  refine ⟨?_, ?_, ?_⟩
  · rw [updateAlbum_eq sampleDB _ 2 ⟨0, "Blue", "Joni Mitchell", 1971⟩ (by decide) rfl]
    rfl
  · rw [updateAlbumViaURL_eq sampleDB _ 2 1971 (by decide) (by decide)]
    rfl
  · simp [marshalAlbum]

/-- C8: when the `year` query parameter does not parse as an integer,
`createAlbumViaURL` and `updateAlbumViaURL` (whatever its path id) respond 400
with the plain-text message "Invalid year" and return with the store exactly
as it was, no statement added to the log; a request without a `year`
parameter, or with an empty one, is such a request. -/
theorem invalid_year_rejected (db : DB) (r : Request)
    (h : Atoi (queryGet r.query "year") = none ∨ (∀ kv ∈ r.query, kv.1 ≠ "year") ∨
          queryGet r.query "year" = "") :
    (createAlbumViaURL db r).resp = some ⟨400, .text "Invalid year"⟩ ∧
    (createAlbumViaURL db r).db = db ∧
    (createAlbumViaURL db r).db.log = db.log ∧
    (updateAlbumViaURL db r).resp = some ⟨400, .text "Invalid year"⟩ ∧
    (updateAlbumViaURL db r).db = db ∧
    (updateAlbumViaURL db r).db.log = db.log := by
  have hnone : Atoi (queryGet r.query "year") = none := by
    rcases h with h | h | h
    · exact h
    · have hf : r.query.find? (fun kv => kv.1 == "year") = none := by
        rw [List.find?_eq_none]
        intro kv hkv
        simpa using h kv hkv
      simp only [queryGet, hf]
      decide
    · rw [h]
      decide
  simp [createAlbumViaURL, updateAlbumViaURL, hnone, httpError, StatusBadRequest, Outcome.resp,
    Outcome.db]

theorem invalid_year_rejected_witness :
    Atoi (queryGet [("title", "X"), ("artist", "Y"), ("year", "abc")] "year") = none ∧
    (createAlbumViaURL sampleDB
        ⟨[("id", "xyz")], [("title", "X"), ("artist", "Y"), ("year", "abc")], none⟩).resp
      = some ⟨400, .text "Invalid year"⟩ ∧
    (createAlbumViaURL sampleDB
        ⟨[("id", "xyz")], [("title", "X"), ("artist", "Y"), ("year", "abc")], none⟩).db
      = sampleDB ∧
    (updateAlbumViaURL sampleDB
        ⟨[("id", "xyz")], [("title", "X"), ("artist", "Y"), ("year", "abc")], none⟩).resp
      = some ⟨400, .text "Invalid year"⟩ ∧
    (updateAlbumViaURL sampleDB
        ⟨[("id", "xyz")], [("title", "X"), ("artist", "Y"), ("year", "abc")], none⟩).db
      = sampleDB :=
  have h := invalid_year_rejected sampleDB
    ⟨[("id", "xyz")], [("title", "X"), ("artist", "Y"), ("year", "abc")], none⟩
    (Or.inl (by decide))
  ⟨by decide, h.1, h.2.1, h.2.2.2.1, h.2.2.2.2.1⟩

/-- C10: on a path id that does not parse as an integer, `deleteAlbum`,
`updateAlbum` and (with a valid year) `updateAlbumViaURL` write no response at
all: `log.Fatal` ends the process. Only `getAlbum` reports 400. None of the
four issues a store statement. -/
theorem invalid_id_fatal_outside_getAlbum :
    (deleteAlbum sampleDB (pathRequest "abc")).resp = none ∧
    (updateAlbum sampleDB
        ⟨[("id", "abc")], [], some ⟨0, "Blue", "Joni Mitchell", 1971⟩⟩).resp = none ∧
    (updateAlbumViaURL sampleDB
        ⟨[("id", "abc")], [("title", "Blue"), ("artist", "Joni Mitchell"), ("year", "1971")],
          none⟩).resp = none ∧
    (getAlbum sampleDB (pathRequest "abc")).resp = some ⟨400, .text "Invalid album ID"⟩ ∧
    (deleteAlbum sampleDB (pathRequest "abc")).db = sampleDB ∧
    (updateAlbum sampleDB
        ⟨[("id", "abc")], [], some ⟨0, "Blue", "Joni Mitchell", 1971⟩⟩).db = sampleDB ∧
    (updateAlbumViaURL sampleDB
        ⟨[("id", "abc")], [("title", "Blue"), ("artist", "Joni Mitchell"), ("year", "1971")],
          none⟩).db = sampleDB ∧
    (getAlbum sampleDB (pathRequest "abc")).db = sampleDB := by
  have h1 : Atoi "abc" = none := by decide
  have h2 : Atoi "1971" = some 1971 := by decide
  simp [deleteAlbum, updateAlbum, updateAlbumViaURL, getAlbum, pathRequest, lookupVar, queryGet,
    h1, h2, Outcome.resp, Outcome.db, httpError, StatusBadRequest]

/-- C3: for an integer path id, `getAlbum` responds 404 with the plain-text
message "Album not found" exactly when no row of the store has that id (and
then only); when a row with that id exists the response is 200 with the JSON
object whose members are id, title, artist and year of a row with that id,
which under the primary-key invariant is the row with that id. In either case
the rows and the next id of the store are unchanged. -/
theorem getAlbum_found_iff (db : DB) (r : Request) (id : Int)
    (h : Atoi (lookupVar r.vars "id") = some id) :
    ((getAlbum db r).resp = some ⟨404, .text "Album not found"⟩
        ↔ ∀ row ∈ db.rows, row.ID ≠ id) ∧
    ((∃ resp, (getAlbum db r).resp = some resp ∧ resp.status = 404)
        ↔ ∀ row ∈ db.rows, row.ID ≠ id) ∧
    ((∃ row ∈ db.rows, row.ID = id) →
        ∃ row ∈ db.rows, row.ID = id ∧
          (getAlbum db r).resp = some ⟨200, .json
            (.obj [("id", .num row.ID), ("title", .str row.Title),
              ("artist", .str row.Artist), ("year", .num row.Year)])⟩) ∧
    (db.WF → ∀ row ∈ db.rows, row.ID = id →
        (getAlbum db r).resp = some ⟨200, .json
            (.obj [("id", .num row.ID), ("title", .str row.Title),
              ("artist", .str row.Artist), ("year", .num row.Year)])⟩) ∧
    (getAlbum db r).db.rows = db.rows ∧ (getAlbum db r).db.nextId = db.nextId := by
  rw [getAlbum_eq db r id h]
  cases hf : db.rows.find? (fun row => row.ID == id) with
  | none =>
    have hn := find?_id_none.mp hf
    refine ⟨?_, ?_, ?_, ?_, rfl, rfl⟩
    · exact ⟨fun _ => hn, fun _ => rfl⟩
    · simp only [Outcome.resp]
      exact ⟨fun _ => hn, fun _ => ⟨_, rfl, rfl⟩⟩
    · rintro ⟨row, hrow, hid⟩
      exact absurd hid (hn row hrow)
    · intro _ row hrow hid
      exact absurd hid (hn row hrow)
  | some album =>
    have hmem : album ∈ db.rows := List.mem_of_find?_eq_some hf
    have hid : album.ID = id := by
      have := List.find?_some hf
      simpa using this
    have hex : ¬ ∀ row ∈ db.rows, row.ID ≠ id := fun hall => hall album hmem hid
    refine ⟨?_, ?_, ?_, ?_, rfl, rfl⟩
    · simp only [Outcome.resp]
      constructor
      · intro h404
        simp at h404
      · intro hall
        exact absurd hall hex
    · simp only [Outcome.resp]
      constructor
      · rintro ⟨resp, hresp, hst⟩
        simp only [Option.some.injEq] at hresp
        subst hresp
        simp at hst
      · intro hall
        exact absurd hall hex
    · intro _
      exact ⟨album, hmem, hid, rfl⟩
    · intro hwf row hrow hrid
      have := find?_id_of_nodup hwf.1 hrow hrid
      rw [hf] at this
      simp only [Option.some.injEq] at this
      subst this
      rfl

theorem getAlbum_found_iff_witness :
    Atoi (lookupVar (pathRequest "2").vars "id") = some 2 ∧ sampleDB.WF ∧
    (getAlbum sampleDB (pathRequest "2")).resp
      = some ⟨200, .json (.obj [("id", .num 2), ("title", .str "Kind of Blue"),
          ("artist", .str "Miles Davis"), ("year", .num 1959)])⟩ ∧
    ((getAlbum sampleDB (pathRequest "2")).resp ≠ some ⟨404, .text "Album not found"⟩) ∧
    (getAlbum sampleDB (pathRequest "2")).db.rows = sampleDB.rows :=
  have hwf : sampleDB.WF := by simp [DB.WF, sampleDB]
  have h := getAlbum_found_iff sampleDB (pathRequest "2") 2 (by decide)
  ⟨by decide, hwf,
   h.2.2.2.1 hwf ⟨2, "Kind of Blue", "Miles Davis", 1959⟩ (by simp [sampleDB]) rfl,
   fun h404 => h.1.mp h404 ⟨2, "Kind of Blue", "Miles Davis", 1959⟩ (by simp [sampleDB]) rfl,
   h.2.2.2.2.1⟩

/-- For an integer path id, `deleteAlbum` responds 200 with the JSON object
whose only member is message = "Album deleted successfully", whether or not a
row with that id existed, and leaves exactly the former rows with another id.
`getAlbums` on the resulting store responds 200; when rows remain the body is
the JSON array of their objects, in stored order, and when none remains the
body is the JSON value `null`. -/
theorem deleteAlbum_listing (db : DB) (r r2 : Request) (id : Int)
    (h : Atoi (lookupVar r.vars "id") = some id) :
    (deleteAlbum db r).resp
      = some ⟨200, .json (.obj [("message", .str "Album deleted successfully")])⟩ ∧
    (deleteAlbum db r).db.rows = db.rows.filter (fun row => row.ID ≠ id) ∧
    (∀ row, row ∈ (deleteAlbum db r).db.rows ↔ row ∈ db.rows ∧ row.ID ≠ id) ∧
    ((∃ row ∈ db.rows, row.ID ≠ id) →
      (getAlbums (deleteAlbum db r).db r2).resp
        = some ⟨200, .json (.arr ((db.rows.filter (fun row => row.ID ≠ id)).map
            (fun row => .obj [("id", .num row.ID), ("title", .str row.Title),
              ("artist", .str row.Artist), ("year", .num row.Year)])))⟩) ∧
    ((∀ row ∈ db.rows, row.ID = id) →
      (getAlbums (deleteAlbum db r).db r2).resp = some ⟨200, .json .null⟩) := by
  have hfilter : (db.ExecDelete id).rows = db.rows.filter (fun row => row.ID ≠ id) := by
    simp only [DB.ExecDelete]
    apply List.filter_congr
    intro row _
    by_cases hh : row.ID = id <;> simp [hh]
  rw [deleteAlbum_eq db r id h]
  simp only [Outcome.db, Outcome.resp, getAlbums_eq, hfilter, DB.issue]
  refine ⟨rfl, ?_, ?_, ?_, ?_⟩
  · trivial
  · intro row
    simp
  · rintro ⟨row, hrow, hne⟩
    have he : db.rows.filter (fun row => row.ID ≠ id) ≠ [] := by
      intro hnil
      have : row ∈ db.rows.filter (fun row => row.ID ≠ id) := by simp [hrow, hne]
      rw [hnil] at this
      simp at this
    simp only [he, if_false, marshalAlbums]
    rfl
  · intro hall
    have he : db.rows.filter (fun row => row.ID ≠ id) = [] := by
      rw [List.filter_eq_nil_iff]
      intro row hrow
      simp [hall row hrow]
    simp only [he, if_true, marshalAlbums]

/-- C6: on a table whose only row has id 1, `deleteAlbum` on path id 1 responds
200 with the object message = "Album deleted successfully" and empties the
table, but the following `getAlbums` listing has the body `null` (the encoding
of the nil slice), not the empty array of the remaining records. When another
row remains (the two-row table), the listing is the array of the remaining
row's object. -/
theorem deleteAlbum_last_row_lists_null :
    (deleteAlbum singleDB (pathRequest "1")).resp
      = some ⟨200, .json (.obj [("message", .str "Album deleted successfully")])⟩ ∧
    (deleteAlbum singleDB (pathRequest "1")).db.rows = [] ∧
    (getAlbums (deleteAlbum singleDB (pathRequest "1")).db (pathRequest "")).resp
      = some ⟨200, .json .null⟩ ∧
    (getAlbums (deleteAlbum singleDB (pathRequest "1")).db (pathRequest "")).resp
      ≠ some ⟨200, .json (.arr [])⟩ ∧
    (getAlbums (deleteAlbum sampleDB (pathRequest "1")).db (pathRequest "")).resp
      = some ⟨200, .json (.arr [.obj [("id", .num 2), ("title", .str "Kind of Blue"),
          ("artist", .str "Miles Davis"), ("year", .num 1959)]])⟩ := by
  have h1 : Atoi (lookupVar (pathRequest "1").vars "id") = some 1 := by decide
  have hs : (singleDB.ExecDelete 1).rows = [] := by decide
  have hd : (sampleDB.ExecDelete 1).rows = [⟨2, "Kind of Blue", "Miles Davis", 1959⟩] := by
    decide
  rw [deleteAlbum_eq singleDB _ 1 h1, deleteAlbum_eq sampleDB _ 1 h1]
  simp only [Outcome.db, Outcome.resp, getAlbums_eq, hs, hd]
  simp [marshalAlbums, marshalAlbum, marshalMessage]

/-- C7: when the integer path id matches no stored row, `updateAlbumViaURL`
(for every title, artist and year that parses) and `updateAlbum` (for every
decoded body) respond 200 with the JSON object whose title, artist and year
members are the submitted ones (its id member is the path id for
`updateAlbumViaURL` and the id of the decoded body for `updateAlbum`), and
leave the table as it was: the same rows, hence the same number of rows, and
the same next id. -/
theorem update_absent_id_keeps_table (db : DB) (r : Request) (id : Int)
    (hid : Atoi (lookupVar r.vars "id") = some id)
    (hno : ∀ row ∈ db.rows, row.ID ≠ id) :
    (∀ year, Atoi (queryGet r.query "year") = some year →
      (updateAlbumViaURL db r).resp
        = some ⟨200, .json (.obj [("id", .num id), ("title", .str (queryGet r.query "title")),
            ("artist", .str (queryGet r.query "artist")), ("year", .num year)])⟩ ∧
      (updateAlbumViaURL db r).db.rows = db.rows ∧
      (updateAlbumViaURL db r).db.rows.length = db.rows.length ∧
      (updateAlbumViaURL db r).db.nextId = db.nextId) ∧
    (∀ bodyId title artist year, r.body = some ⟨bodyId, title, artist, year⟩ →
      (updateAlbum db r).resp
        = some ⟨200, .json (.obj [("id", .num bodyId), ("title", .str title),
            ("artist", .str artist), ("year", .num year)])⟩ ∧
      (updateAlbum db r).db.rows = db.rows ∧
      (updateAlbum db r).db.rows.length = db.rows.length ∧
      (updateAlbum db r).db.nextId = db.nextId) := by
  constructor
  · intro year hy
    rw [updateAlbumViaURL_eq db r id year hy hid]
    have hrows := ExecUpdate_rows_of_absent db (queryGet r.query "title")
      (queryGet r.query "artist") year id hno
    exact ⟨rfl, hrows, congrArg List.length hrows, rfl⟩
  · intro bodyId title artist year hb
    rw [updateAlbum_eq db r id _ hid hb]
    have hrows := ExecUpdate_rows_of_absent db title artist year id hno
    exact ⟨rfl, hrows, congrArg List.length hrows, rfl⟩

theorem update_absent_id_keeps_table_witness :
    Atoi (lookupVar [("id", "999")] "id") = some 999 ∧
    (∀ row ∈ sampleDB.rows, row.ID ≠ 999) ∧
    (updateAlbumViaURL sampleDB
        ⟨[("id", "999")], [("title", "X"), ("artist", "Y"), ("year", "2001")],
          some ⟨0, "X", "Y", 2001⟩⟩).resp
      = some ⟨200, .json (.obj [("id", .num 999), ("title", .str "X"), ("artist", .str "Y"),
          ("year", .num 2001)])⟩ ∧
    (updateAlbumViaURL sampleDB
        ⟨[("id", "999")], [("title", "X"), ("artist", "Y"), ("year", "2001")],
          some ⟨0, "X", "Y", 2001⟩⟩).db.rows = sampleDB.rows ∧
    (updateAlbum sampleDB
        ⟨[("id", "999")], [("title", "X"), ("artist", "Y"), ("year", "2001")],
          some ⟨0, "X", "Y", 2001⟩⟩).resp
      = some ⟨200, .json (.obj [("id", .num 0), ("title", .str "X"), ("artist", .str "Y"),
          ("year", .num 2001)])⟩ ∧
    (updateAlbum sampleDB
        ⟨[("id", "999")], [("title", "X"), ("artist", "Y"), ("year", "2001")],
          some ⟨0, "X", "Y", 2001⟩⟩).db.rows = sampleDB.rows :=
  have hno : ∀ row ∈ sampleDB.rows, row.ID ≠ 999 := by simp [sampleDB]
  have h := update_absent_id_keeps_table sampleDB
    ⟨[("id", "999")], [("title", "X"), ("artist", "Y"), ("year", "2001")],
      some ⟨0, "X", "Y", 2001⟩⟩ 999 (by decide) hno
  have h1 := h.1 2001 (by decide)
  have h2 := h.2 0 "X" "Y" 2001 rfl
  ⟨by decide, hno, h1.1, h1.2.1, h2.1, h2.2.1⟩

/-- C9: after a successful `updateAlbumViaURL` or `updateAlbum` with integer
path id P (whatever id the decoded body carries), the store holds the same
identifiers at the same positions, so the same set of identifiers; every row
that had id P still has id P and now has exactly the submitted title, artist
and year; every row with another id is unchanged; the next id is unchanged. -/
theorem update_keeps_identifiers (db : DB) (r : Request) (id : Int)
    (title artist : String) (year : Int) (after : DB)
    (hid : Atoi (lookupVar r.vars "id") = some id)
    (hreq : (Atoi (queryGet r.query "year") = some year ∧ title = queryGet r.query "title" ∧
              artist = queryGet r.query "artist" ∧ after = (updateAlbumViaURL db r).db) ∨
            (∃ bodyId, r.body = some ⟨bodyId, title, artist, year⟩ ∧
              after = (updateAlbum db r).db)) :
    after.rows.map Album.ID = db.rows.map Album.ID ∧
    (∀ x, x ∈ after.rows.map Album.ID ↔ x ∈ db.rows.map Album.ID) ∧
    (∀ (i : Nat) (row : Album), db.rows[i]? = some row →
      after.rows[i]? = some (if row.ID = id then ⟨id, title, artist, year⟩ else row)) ∧
    (∀ row ∈ after.rows, row.ID = id → row = ⟨id, title, artist, year⟩) ∧
    ((∃ old ∈ db.rows, old.ID = id) → (⟨id, title, artist, year⟩ : Album) ∈ after.rows) ∧
    (∀ row, row.ID ≠ id → (row ∈ after.rows ↔ row ∈ db.rows)) ∧
    after.nextId = db.nextId := by
  have hafter : after = db.ExecUpdate title artist year id := by
    rcases hreq with ⟨hy, rfl, rfl, rfl⟩ | ⟨bodyId, hb, rfl⟩
    · rw [updateAlbumViaURL_eq db r id year hy hid]
      rfl
    · rw [updateAlbum_eq db r id _ hid hb]
      rfl
  subst hafter
  have hids := ExecUpdate_ids db title artist year id
  refine ⟨hids, ?_, ?_, ?_, ?_, ?_, rfl⟩
  · intro x
    rw [hids]
  · intro i row hrow
    simp only [DB.ExecUpdate, List.getElem?_map, hrow, Option.map_some']
    by_cases h : row.ID = id
    · simp [h]
    · simp [h]
  · intro row hrow hrid
    rcases (mem_ExecUpdate_rows db title artist year id row).mp hrow with
      ⟨_, hne⟩ | ⟨heq, _⟩
    · exact absurd hrid hne
    · exact heq
  · intro hex
    exact (mem_ExecUpdate_rows db title artist year id _).mpr (Or.inr ⟨rfl, hex⟩)
  · intro row hne
    rw [mem_ExecUpdate_rows]
    constructor
    · rintro (⟨hrow, _⟩ | ⟨rfl, _⟩)
      · exact hrow
      · exact absurd rfl hne
    · intro hrow
      exact Or.inl ⟨hrow, hne⟩

theorem update_keeps_identifiers_witness :
    Atoi (lookupVar [("id", "2")] "id") = some 2 ∧
    (⟨[("id", "2")], [], some ⟨7, "Sketches of Spain", "Miles Davis", 1960⟩⟩ : Request).body
      = some ⟨7, "Sketches of Spain", "Miles Davis", 1960⟩ ∧
    (updateAlbum sampleDB
        ⟨[("id", "2")], [], some ⟨7, "Sketches of Spain", "Miles Davis", 1960⟩⟩).db.rows.map
        Album.ID = sampleDB.rows.map Album.ID ∧
    (⟨2, "Sketches of Spain", "Miles Davis", 1960⟩ : Album) ∈
      (updateAlbum sampleDB
        ⟨[("id", "2")], [], some ⟨7, "Sketches of Spain", "Miles Davis", 1960⟩⟩).db.rows :=
  have h := update_keeps_identifiers sampleDB
    ⟨[("id", "2")], [], some ⟨7, "Sketches of Spain", "Miles Davis", 1960⟩⟩ 2
    "Sketches of Spain" "Miles Davis" 1960 _ (by decide) (Or.inr ⟨7, rfl, rfl⟩)
  ⟨by decide, rfl, h.1,
   h.2.2.2.2.1 ⟨⟨2, "Kind of Blue", "Miles Davis", 1959⟩, by simp [sampleDB], rfl⟩⟩

/-- C1: on a store that satisfies the primary-key invariant, when `createAlbum`
(body carrying title, artist, year) or `createAlbumViaURL` (query carrying
them, year parsing as an integer) runs, it responds 200 with an album, and for
whatever album the response carries: its title, artist and year are the
submitted ones, and `getAlbum` on a path id that parses to that album's id,
run against the resulting store, responds 200 with that same album, the very
response the create request got; the decimal text of the id is such a path id
whenever the id fits a 64-bit `int`. -/
theorem create_then_get (db : DB) (r : Request) (title artist : String) (year : Int)
    (created : Outcome) (hwf : db.WF)
    (hreq : (∃ bodyId, r.body = some ⟨bodyId, title, artist, year⟩ ∧
              created = createAlbum db r) ∨
            (Atoi (queryGet r.query "year") = some year ∧ title = queryGet r.query "title" ∧
              artist = queryGet r.query "artist" ∧ created = createAlbumViaURL db r)) :
    (∃ album, created.resp = some ⟨200, .json (marshalAlbum album)⟩) ∧
    (∀ album, created.resp = some ⟨200, .json (marshalAlbum album)⟩ →
      album.Title = title ∧ album.Artist = artist ∧ album.Year = year ∧
      (∀ r2, Atoi (lookupVar r2.vars "id") = some album.ID →
        (getAlbum created.db r2).resp = some ⟨200, .json (marshalAlbum album)⟩ ∧
        (getAlbum created.db r2).resp = created.resp) ∧
      (-(maxInt64 + 1) ≤ album.ID → album.ID ≤ maxInt64 →
        (getAlbum created.db (pathRequest (Itoa album.ID))).resp
          = some ⟨200, .json (marshalAlbum album)⟩)) := by
  have hcreated : created =
      .respond ⟨200, .json (marshalAlbum ⟨db.nextId, title, artist, year⟩)⟩
        (db.ExecInsert title artist year).2 := by
    rcases hreq with ⟨bodyId, hb, rfl⟩ | ⟨hy, rfl, rfl, rfl⟩
    · rw [createAlbum_eq db r _ hb]
    · rw [createAlbumViaURL_eq db r year hy]
  subst hcreated
  refine ⟨⟨_, rfl⟩, ?_⟩
  intro album halbum
  simp only [Outcome.resp, Option.some.injEq, Response.mk.injEq, Body.json.injEq, true_and]
    at halbum
  have halbum := (marshalAlbum_injective halbum).symm
  subst halbum
  have hwf2 := WF_ExecInsert db title artist year hwf
  have hmem : (⟨db.nextId, title, artist, year⟩ : Album)
      ∈ (db.ExecInsert title artist year).2.rows := by
    simp [DB.ExecInsert]
  have hfind := find?_id_of_nodup hwf2.1 hmem rfl
  have hget : ∀ r2, Atoi (lookupVar r2.vars "id") = some db.nextId →
      (getAlbum (db.ExecInsert title artist year).2 r2).resp
        = some ⟨200, .json (marshalAlbum ⟨db.nextId, title, artist, year⟩)⟩ := by
    intro r2 hr2
    rw [getAlbum_eq _ r2 _ hr2]
    simp only [hfind]
    rfl
  refine ⟨rfl, rfl, rfl, ?_, ?_⟩
  · intro r2 hr2
    exact ⟨hget r2 hr2, hget r2 hr2⟩
  · intro hlo hhi
    apply hget
    have hvar : lookupVar (pathRequest (Itoa db.nextId)).vars "id" = Itoa db.nextId := by
      simp [pathRequest, lookupVar]
    rw [hvar]
    exact Atoi_Itoa db.nextId hlo hhi

theorem create_then_get_witness :
    (⟨[], [], some ⟨0, "Blue", "Joni Mitchell", 1971⟩⟩ : Request).body
      = some ⟨0, "Blue", "Joni Mitchell", 1971⟩ ∧
    sampleDB.WF ∧
    (createAlbum sampleDB ⟨[], [], some ⟨0, "Blue", "Joni Mitchell", 1971⟩⟩).resp
      = some ⟨200, .json (marshalAlbum ⟨3, "Blue", "Joni Mitchell", 1971⟩)⟩ ∧
    Atoi (lookupVar (pathRequest "3").vars "id") = some 3 ∧
    (getAlbum (createAlbum sampleDB ⟨[], [], some ⟨0, "Blue", "Joni Mitchell", 1971⟩⟩).db
        (pathRequest "3")).resp
      = some ⟨200, .json (marshalAlbum ⟨3, "Blue", "Joni Mitchell", 1971⟩)⟩ :=
  have hwf : sampleDB.WF := by simp [DB.WF, sampleDB]
  have h := create_then_get sampleDB ⟨[], [], some ⟨0, "Blue", "Joni Mitchell", 1971⟩⟩
    "Blue" "Joni Mitchell" 1971 _ hwf (Or.inl ⟨0, rfl, rfl⟩)
  have hresp : (createAlbum sampleDB ⟨[], [], some ⟨0, "Blue", "Joni Mitchell", 1971⟩⟩).resp
      = some ⟨200, .json (marshalAlbum ⟨3, "Blue", "Joni Mitchell", 1971⟩)⟩ := rfl
  ⟨rfl, hwf, hresp, by decide, ((h.2 _ hresp).2.2.2.1 (pathRequest "3") (by decide)).1⟩

end RestfulGolang
